import Mathlib

/-!
Verification of the geometry-export pipeline of `cjio_dbexport`.

The development shallowly embeds the functions of `cjio_dbexport/db3dnl.py`
(query construction, tile-list resolution, `POLYGON Z` parsing, the record
converter and the single-threaded export scheduler) together with the grid /
Morton-code indexer described by the specification, and proves the stated
properties about them.  Python dictionaries are modelled as association lists,
PostgreSQL result values as explicit inductive types, floating-point literals
as exact rationals, and fallible code through `Option` / `Except`.
-/

namespace CjioDbexport

/-! ## Grid indexer: Morton codes

Modelled from the spec: `utils.morton_code` and `utils.rev_morton_code` are
not part of the sources at hand (only their tests are). Per the spec,
`morton_code` computes a 2D Morton (bit-interleaved Z-order) code from
non-negative integer coordinates and `rev_morton_code` is its inverse. -/

/-- Modelled from the spec: `utils.morton_code`. Interleaves the bits of the
two coordinates, `x` occupying the even bit positions and `y` the odd ones. -/
def morton_code (x y : Nat) : Nat :=
  if x = 0 ∧ y = 0 then 0
  else x % 2 + 2 * (y % 2) + 4 * morton_code (x / 2) (y / 2)
termination_by x + y
decreasing_by omega

/-- Modelled from the spec: `utils.rev_morton_code`. De-interleaves a Morton
key back into the `(x, y)` coordinate pair. -/
def rev_morton_code (key : Nat) : Nat × Nat :=
  if key = 0 then (0, 0)
  else
    let p := rev_morton_code (key / 4)
    (2 * p.1 + key % 2, 2 * p.2 + key / 2 % 2)
termination_by key
decreasing_by omega

/-- Modelled from the spec: `utils.create_rectangle_grid_morton`. Builds the
quadtree-compatible grid over `[xmin, xmax] x [ymin, ymax]`: the base cell
counts `ceil(width/hspacing)` by `ceil(height/vspacing)` are expanded to a
`2^k` by `2^k` square (smallest such `k`), and every cell is keyed by the
Morton code of its `(column, row)` index. -/
def create_rectangle_grid_morton (xmin ymin xmax ymax hspacing vspacing : ℚ) :
    List (Nat × (ℚ × ℚ × ℚ × ℚ)) :=
  let tiles_x : Nat := (⌈(xmax - xmin) / hspacing⌉).toNat
  let tiles_y : Nat := (⌈(ymax - ymin) / vspacing⌉).toNat
  let k : Nat := Nat.clog 2 (max tiles_x tiles_y)
  let side : Nat := 2 ^ k
  (List.range side).flatMap fun row =>
    (List.range side).map fun col =>
      (morton_code col row,
        (xmin + col * hspacing, ymin + row * vspacing,
         xmin + (col + 1) * hspacing, ymin + (row + 1) * vspacing))

/-- The schema description of a feature table: `db.Schema` as consumed by
`db3dnl.py` (`features.schema`, `features.table`, `features.field.pk`,
`features.field.cityobject_id`, `features.field.geometry` -- an ordered
lod-to-column mapping -- and `features.field.exclude`). -/
structure FeatureSchema where
  schema : String
  table : String
  pk : String
  cityobject_id : String
  geometry : List (String × String)
  exclude : List String
deriving DecidableEq, Repr

/-- The schema description of the tile index table (`tile_index.schema`,
`tile_index.table`, `tile_index.field.pk`, `tile_index.field.geometry`). -/
structure TileIndexSchema where
  schema : String
  table : String
  pk : String
  geometry : String
deriving DecidableEq, Repr

/-- A composed SQL fragment: one constructor per SQL template in the source,
carrying the parameters substituted into the template. `empty` is
`sql.Composed("")`. -/
inductive Frag where
  | empty
  | polygonsAll (pk geometry tbl : String)
  | polygonsBbox (pk geometry tbl : String)
      (xmin ymin xmax ymax : ℚ) (epsg : ℤ)
  | whereBbox (geometry : String) (xmin ymin xmax ymax : ℚ) (epsg : ℤ)
  | polygonsExtent (pk geometry tbl : String) (poly : String)
  | whereExtent (geometry : String) (poly : String)
  | extentTiles (txGeom txPk txTbl : String) (tileList : List String)
  | polygonsTilesInExtent (tblPk tblGeom tbl : String)
  | whereTilesExtent (tblGeom : String)
deriving DecidableEq, Repr

/-- The `(polygons_sub, attr_where, extent_sub)` triple returned by each of
the four subquery builders. -/
structure SubQueries where
  polygons : Frag
  attrWhere : Frag
  extentSub : Frag
deriving DecidableEq, Repr

/-- `db3dnl.query_all`: subquery of all the geometry in the table.  The
geometry column resolved from the lod (`getattr(features.field.geometry,
lod)`) is passed in as `gcol`. -/
def query_all (features : FeatureSchema) (gcol : String) : SubQueries :=
  { polygons := .polygonsAll features.pk gcol (features.schema ++ features.table)
    attrWhere := .empty
    extentSub := .empty }

/-- `db3dnl.query_bbox`: subquery of the geometry in a BBOX.  The source reads
`bbox[0] .. bbox[3]`; out-of-range access (an `IndexError` in Python) is
modelled by a `0` default. -/
def query_bbox (features : FeatureSchema) (bbox : List ℚ) (epsg : ℤ)
    (gcol : String) : SubQueries :=
  { polygons := .polygonsBbox features.pk gcol
      (features.schema ++ features.table)
      (bbox.getD 0 0) (bbox.getD 1 0) (bbox.getD 2 0) (bbox.getD 3 0) epsg
    attrWhere := .whereBbox gcol
      (bbox.getD 0 0) (bbox.getD 1 0) (bbox.getD 2 0) (bbox.getD 3 0) epsg
    extentSub := .empty }

/-- `db3dnl.query_extent`: subquery of the geometry in a polygon, given the
polygon's EWKT rendering. -/
def query_extent (features : FeatureSchema) (ewkt : String) (gcol : String) :
    SubQueries :=
  { polygons := .polygonsExtent features.pk gcol
      (features.schema ++ features.table) ewkt
    attrWhere := .whereExtent gcol ewkt
    extentSub := .empty }

/-- `db3dnl.query_tiles_in_list`: subquery of the geometry in the tile list. -/
def query_tiles_in_list (features : FeatureSchema) (tile_index : TileIndexSchema)
    (tile_list : List String) (gcol : String) : SubQueries :=
  { polygons := .polygonsTilesInExtent features.pk gcol
      (features.schema ++ features.table)
    attrWhere := .whereTilesExtent gcol
    extentSub := .extentTiles tile_index.geometry tile_index.pk
      (tile_index.schema ++ tile_index.table) tile_list }

/-- Modelled from the spec: `utils.to_ewkt` (its module is not among the
sources).  Renders a polygon with an SRID header, e.g.
`SRID=7415;POLYGON((0 0,1 1,1 0,0 0))`; the exact numeral rendering of the
coordinates is irrelevant to every claim and uses `toString` on `ℚ`. -/
def to_ewkt (polygon : List (List (ℚ × ℚ))) (srid : ℤ) : String :=
  "SRID=" ++ toString srid ++ ";POLYGON(" ++
    String.intercalate ","
      ((polygon.map fun ring =>
        "(" ++ String.intercalate ","
          (ring.map fun pt => toString pt.1 ++ " " ++ toString pt.2) ++ ")")) ++
    ")"

/-- The parameters substituted into the `query_geometry` SQL template. -/
structure GeometryQuery where
  pk : String
  coid : String
  geometry : String
  tbl : String
  polygons : Frag
  extentSub : Frag
deriving DecidableEq, Repr

/-- `db3dnl.query_geometry`: the vertex re-aggregation query, parameterised by
the polygons and extent subqueries. -/
def query_geometry (features : FeatureSchema) (gcol : String)
    (polygons_sub : Frag) (extent_sub : Frag) : GeometryQuery :=
  { pk := features.pk
    coid := features.cityobject_id
    geometry := gcol
    tbl := features.schema ++ features.table
    polygons := polygons_sub
    extentSub := extent_sub }

/-- The parameters substituted into the main SQL template of `build_query`. -/
structure MainQuery where
  pk : String
  coid : String
  tbl : String
  attr : List String
  whereIntersects : Frag
  extentSub : Frag
  queryGeometry : GeometryQuery
deriving DecidableEq, Repr

/-- `db3dnl.build_query`: builds the extraction query for one table.
`tableFields` is the result of `conn.get_fields(features.schema +
features.table)`.  Python truthiness of the default-`None` selection
parameters is modelled by emptiness of the corresponding list (`None` and an
empty sequence are both falsy, and nothing else distinguishes them in this
function).  An empty lod-to-geometry-column mapping (where `lods[0]` would
raise an `IndexError`) yields `none`. -/
def build_query (tableFields : List String) (features : FeatureSchema)
    (tile_index : TileIndexSchema) (tile_list : List String := [])
    (bbox : List ℚ := []) (extent : List (List (ℚ × ℚ)) := []) :
    Option MainQuery :=
  let epsg : ℤ := 7415
  let attr_select := tableFields.filter fun col =>
    col ≠ features.pk ∧ col ∉ (features.geometry.map Prod.snd) ∧
      col ≠ features.cityobject_id ∧ col ∉ features.exclude
  match features.geometry with
  | [] => none
  | (_, gcol) :: _ =>
    let sub :=
      if bbox ≠ [] then query_bbox features bbox epsg gcol
      else if tile_list ≠ [] then
        query_tiles_in_list features tile_index tile_list gcol
      else if extent ≠ [] then
        query_extent features (to_ewkt extent epsg) gcol
      else query_all features gcol
    some
      { pk := features.pk
        coid := features.cityobject_id
        tbl := features.schema ++ features.table
        attr := attr_select
        whereIntersects := sub.attrWhere
        extentSub := sub.extentSub
        queryGeometry := query_geometry features gcol sub.polygons sub.extentSub }

/-- The selection subqueries observable in the built query: the polygons
fragment (inside `query_geometry`), the attribute `WHERE` fragment and the
extent fragment. -/
def MainQuery.selection (q : MainQuery) : SubQueries :=
  { polygons := q.queryGeometry.polygons
    attrWhere := q.whereIntersects
    extentSub := q.extentSub }

/-- A Python value as it appears in a result row. -/
inductive PyVal where
  | str (s : String)
  | num (q : ℚ)
  | dt (isoformat : String)
  | pyNone
  | list (xs : List PyVal)

mutual

/-- Nesting depth of a Python value: `0` for scalars, one more than the
deepest element for a list. -/
def pyDepth : PyVal → Nat
  | .list xs => 1 + pyDepthList xs
  | _ => 0

/-- Nesting depth of the deepest element of a list of Python values. -/
def pyDepthList : List PyVal → Nat
  | [] => 0
  | x :: xs => max (pyDepth x) (pyDepthList xs)

end

/-- Dictionary lookup, `record[key]`; `none` models a `KeyError`. -/
def pyGet (record : List (String × PyVal)) (key : String) : Option PyVal :=
  (record.find? fun kv => kv.1 == key).map Prod.snd

/-- A converted CityObject: id, geometry (type, lod, boundaries) and
attributes, as assembled by `table_to_cityobjects`. -/
structure CityObject where
  id : PyVal
  geomtype : String
  lod : String
  boundaries : Option PyVal
  attributes : List (String × PyVal)
  cotype : String

/-- The attribute conversion in `table_to_cityobjects`: a `datetime` value is
stored as its `isoformat()` string, every other value passes through. -/
def convertAttr : PyVal → PyVal
  | .dt iso => .str iso
  | v => v

/-- The body of the `for record in tabledata` loop of
`db3dnl.table_to_cityobjects`: one record to one `(coid, CityObject)` pair.
`record['coid']` is always read; `record['geom']` is read only in the
`'Solid'` and `'MultiSurface'` branches (any other `geomtype` leaves
`geom.boundaries` unset); a missing key (`KeyError`) yields `none`. -/
def record_to_cityobject (record : List (String × PyVal))
    (cotype geomtype lod : String) : Option (PyVal × CityObject) := do
  let coid ← pyGet record "coid"
  let boundaries : Option PyVal ←
    if geomtype = "Solid" then do
      let g ← pyGet record "geom"
      pure (some (.list [g]))
    else if geomtype = "MultiSurface" then do
      let g ← pyGet record "geom"
      pure (some g)
    else pure none
  let attributes := (record.filter fun kv =>
      kv.1 ≠ "pk" ∧ kv.1 ≠ "geom" ∧ kv.1 ≠ "coid").map fun kv =>
    (kv.1, convertAttr kv.2)
  pure (coid,
    { id := coid, geomtype := geomtype, lod := lod
      boundaries := boundaries, attributes := attributes, cotype := cotype })

/-- `db3dnl.table_to_cityobjects`: converts every record of a table's result
set; the generator is modelled as the list of its yields, an exception as
`none`. -/
def table_to_cityobjects (tabledata : List (List (String × PyVal)))
    (cotype geomtype lod : String) : Option (List (PyVal × CityObject)) :=
  tabledata.mapM fun record => record_to_cityobject record cotype geomtype lod

/-- Python `str.lower()` (ASCII case folding), written on the underlying
character list so that it evaluates by kernel reduction. -/
def pyLower (s : String) : String := ⟨s.data.map Char.toLower⟩

/-- The geometry-kind classification in `db3dnl.dbexport_to_cityobjects`:
`'Solid'` when `cotype.lower() == 'building'`, else `'MultiSurface'`. -/
def geomtype_of_cotype (cotype : String) : String :=
  if pyLower cotype = "building" then "Solid" else "MultiSurface"

/-- `db3dnl.dbexport_to_cityobjects`: classifies each table's object type and
converts its result set. -/
def dbexport_to_cityobjects
    (dbexport : List ((String × String) × List (List (String × PyVal))))
    (lod : String) : Option (List (PyVal × CityObject)) :=
  (dbexport.mapM fun entry =>
    table_to_cityobjects entry.2 entry.1.1 (geomtype_of_cotype entry.1.1) lod).map
    List.flatten

/-- A concrete multi-surface boundary value (one surface with one ring of one
point), used by concrete instances below. -/
def exampleGeom : PyVal :=
  .list [.list [.list [.list [.num 1, .num 2, .num 3]]]]

/-- A concrete result row with `pk`, `coid`, `geom` and one generic
attribute. -/
def exampleRecord : List (String × PyVal) :=
  [("pk", .num 1), ("coid", .str "b1"), ("geom", exampleGeom),
   ("height", .num 10)]

/-- The tile-index schema used in concrete instances. -/
def exampleTileIndex : TileIndexSchema := ⟨"idx", "tiles", "id", "geom"⟩

/-- The feature-table schema used in concrete instances. -/
def exampleFeatures : FeatureSchema :=
  ⟨"s.", "tbl", "pk_col", "coid_col", [("1", "geom_col")], ["skipme"]⟩

/-- The query `build_query` constructs for `exampleFeatures` over the whole
table: the attribute projection keeps only `"height"`. -/
def exampleMainQuery : MainQuery :=
  { pk := "pk_col"
    coid := "coid_col"
    tbl := "s.tbl"
    attr := ["height"]
    whereIntersects := .empty
    extentSub := .empty
    queryGeometry :=
      ⟨"pk_col", "coid_col", "geom_col", "s.tbl",
        .polygonsAll "pk_col" "geom_col" "s.tbl", .empty⟩ }

/-- The CityObject produced from `exampleRecord` as a `'Solid'`. -/
def exampleCityObject : CityObject :=
  ⟨.str "b1", "Solid", "1", some (.list [exampleGeom]),
    [("height", .num 10)], "Building"⟩

/-- An error raised during tile-list resolution.  The source raises
`AttributeError` for an empty effective tile set (the spec's
`SelectionError`); `indexOutOfRange` models the `IndexError` that
`tile_list[0]` raises on an empty tuple. -/
inductive SelError where
  | selection (msg : String)
  | indexOutOfRange
deriving DecidableEq, Repr

/-- `db3dnl.all_in_index`: all distinct tile IDs of the tile index. -/
def all_in_index (idx : List String) : List String := idx.dedup

/-- `db3dnl.tiles_in_index`: the distinct tile IDs of the index that appear in
`tile_list`; provided ids not in the index are only logged as skipped. -/
def tiles_in_index (idx : List String) (tile_list : List String) :
    List String :=
  (idx.filter fun t => t ∈ tile_list).dedup

/-- `db3dnl.with_list`: select tiles based on a list of tile IDs. When the
first element lowercased is `"all"`, every tile of the index is selected,
otherwise the provided ids are filtered against the index; an empty result
raises (`AttributeError`, the spec's SelectionError). -/
def with_list (idx : List String) (tile_list : List String) :
    Except SelError (List String) :=
  match tile_list with
  | [] => .error .indexOutOfRange
  | t0 :: _ =>
    let in_index :=
      if pyLower t0 = "all" then all_in_index idx
      else tiles_in_index idx tile_list
    if in_index.length = 0 then
      .error (.selection
        "None of the provided tiles are present in the index.")
    else .ok in_index

/-- Whether tile-list resolution failed with the empty-selection error. -/
def isSelectionError : Except SelError (List String) → Bool
  | .error (.selection _) => true
  | _ => false

/-- The argument passed to `conn.get_dict`: either a built SQL query or the
module-level generator function object `query`. -/
inductive QueryArg where
  | builtQuery (q : Option MainQuery)
  | moduleFunction
deriving DecidableEq, Repr

/-- A table entry of the `cityobject_type` configuration mapping, together
with the column list that `conn.get_fields` reports for it. -/
structure COTable where
  table : String
  features : FeatureSchema
  tableFields : List String
deriving DecidableEq, Repr

/-- The `threads == 1` branch of `db3dnl.query`: for every `(cotype,
cotable)` it builds `sql_query` with `build_query` — and then passes the
module-level function `query` (not `sql_query`) to `conn.get_dict`, exactly
as the source does on line 414.  The result models, per yield, the
`(cotype, tablename)` pair and the argument handed to the driver. -/
def query_single_thread (cityobject_type : List (String × List COTable))
    (tile_index : TileIndexSchema) (tile_list : List String) (bbox : List ℚ)
    (extent : List (List (ℚ × ℚ))) : List ((String × String) × QueryArg) :=
  cityobject_type.flatMap fun p =>
    p.2.map fun cotable =>
      let _sql_query :=
        build_query cotable.tableFields cotable.features tile_index tile_list
          bbox extent
      ((p.1, cotable.table), QueryArg.moduleFunction)

/-- A dumped polygon point: `(pk, (geom).PATH[1], (geom).PATH[2],
(geom).PATH[3], ARRAY[ST_X, ST_Y, ST_Z])`. -/
structure DumpedPoint where
  pk : Int
  exterior : Int
  interior : Int
  vertex : Int
  point : List ℚ
deriving DecidableEq, Repr

/-- The `ORDER BY pk, exterior, interior, vertex` comparison. -/
def rowLe (a b : DumpedPoint) : Bool :=
  decide (a.pk < b.pk ∨ (a.pk = b.pk ∧ (a.exterior < b.exterior ∨
    (a.exterior = b.exterior ∧ (a.interior < b.interior ∨
      (a.interior = b.interior ∧ a.vertex ≤ b.vertex))))))

/-- The `expand_points` subquery of `db3dnl.query_geometry`: keep the dumped
points `WHERE (geom).PATH[3] > 1` and order by
`(pk, exterior, interior, vertex)`. -/
def expand_points (polygons : List DumpedPoint) : List DumpedPoint :=
  (polygons.filter fun r => 1 < r.vertex).mergeSort rowLe

/-! ## `db3dnl.parse_polygonz`

The two regular expressions of the source are embedded as character-list
scanners with the exact match semantics of `re.findall` on them:

* `outer_pat = (?<=POLYGON Z \()` followed by `.*(?!$)`: at the first
  position preceded by the text `POLYGON Z (`, the greedy `.*` takes the rest
  of the line and the `(?!$)` look-ahead backtracks it off the final
  character (no match when nothing follows the look-behind);
* `ring_pat = \(([^)]+)\)`: a left-to-right scan that, at each `(`, captures
  a maximal non-empty run of non-`)` characters followed by `)`.

`float()` is modelled exactly on plain decimal literals (the only form
`ST_AsText` produces), with the decimal value kept as a rational. -/

/-- The look-behind text of `outer_pat`. -/
def POLYGON_Z_PAT : List Char := "POLYGON Z (".toList

/-- The match of `.*(?!$)` at a fixed position: `none` when the remainder is
empty; otherwise the rest of the line, backtracked off its final character
when the line runs to the end of the input. -/
def dotStarNotEnd (rem : List Char) : Option (List Char) :=
  if rem = [] then none
  else
    let t := rem.takeWhile fun c => c ≠ '\n'
    if t.length = rem.length then some t.dropLast else some t

/-- The first match of `outer_pat` (`outer[0]` in the source): scan for an
occurrence of `POLYGON Z (` after which `.*(?!$)` matches. -/
def outerScan : List Char → Option (List Char)
  | [] => none
  | c :: rest =>
    if POLYGON_Z_PAT.isPrefixOf (c :: rest) then
      match dotStarNotEnd ((c :: rest).drop POLYGON_Z_PAT.length) with
      | some m => some m
      | none => outerScan rest
    else outerScan rest

/-- `ring_pat.findall`: the state is `none` while scanning for a `(` and
`some acc` while inside a candidate match with captured content `acc`. -/
def ringScan : List Char → Option (List Char) → List (List Char)
  | [], _ => []
  | c :: rest, none =>
    if c = '(' then ringScan rest (some []) else ringScan rest none
  | c :: rest, some acc =>
    if c = ')' then
      if acc = [] then ringScan rest none
      else acc :: ringScan rest none
    else ringScan rest (some (acc ++ [c]))

/-- Python `str.split()` with no separator: maximal runs of
non-whitespace characters, with empty tokens discarded. -/
def wsTokensAux : List Char → List Char → List (List Char)
  | [], acc => if acc = [] then [] else [acc]
  | c :: rest, acc =>
    if c.isWhitespace then
      if acc = [] then wsTokensAux rest [] else acc :: wsTokensAux rest []
    else wsTokensAux rest (acc ++ [c])

/-- Python `pt.split()`. -/
def pySplitWs (l : List Char) : List (List Char) := wsTokensAux l []

/-- The numeric value of a digit run. -/
def digitsToNat (l : List Char) : Nat :=
  l.foldl (fun acc c => 10 * acc + (c.toNat - 48)) 0

/-- Python `float()` on a plain decimal literal: optional sign, integer
digits, optional `.` and fraction digits (the forms `ST_AsText` emits);
the decimal value is kept exactly as a rational. Anything else is a
`ValueError`, modelled as `none`. -/
def pyfloat (l : List Char) : Option ℚ :=
  let sl : Bool × List Char :=
    match l with
    | '-' :: t => (true, t)
    | '+' :: t => (false, t)
    | _ => (false, l)
  let intd := sl.2.takeWhile Char.isDigit
  let l2 := sl.2.dropWhile Char.isDigit
  match l2 with
  | [] =>
    if intd = [] then none
    else
      let m : Int := (digitsToNat intd : Int)
      some (mkRat (if sl.1 then -m else m) 1)
  | '.' :: fr =>
    let frd := fr.takeWhile Char.isDigit
    if fr.dropWhile Char.isDigit ≠ [] then none
    else if intd = [] ∧ frd = [] then none
    else
      let m : Int := (digitsToNat (intd ++ frd) : Int)
      some (mkRat (if sl.1 then -m else m) (10 ^ frd.length))
  | _ => none

/-- One point of a ring: `tuple(map(float, pt.split()))`. -/
def parsePoint (pt : List Char) : Option (List ℚ) :=
  (pySplitWs pt).mapM pyfloat

/-- All raw points of a ring text: `[tuple(map(float, pt.split())) for pt in
ring.split(',')]`. -/
def parseRing (ring : List Char) : Option (List (List ℚ)) :=
  (ring.splitOn ',').mapM parsePoint

/-- `db3dnl.parse_polygonz`: parses a `POLYGON Z` WKT text into CityJSON
surface rings, skipping each ring's first (duplicated) vertex.  The
generator is modelled as the list of its yields; when `outer_pat` does not
match, the source logs "Not a POLYGON Z" and yields nothing (`some []`); a
`ValueError` from `float()` is `none`. -/
def parse_polygonz (wkt_polygonz : List Char) : Option (List (List (List ℚ))) :=
  match outerScan wkt_polygonz with
  | none => some []
  | some outer0 =>
    (ringScan outer0 none).mapM fun ring => (parseRing ring).map (List.drop 1)

/-- The body text of a well-formed `POLYGON Z` input: the ring texts, each
parenthesised, separated by commas. -/
def ringsBody : List (List Char) → List Char
  | [] => []
  | [r] => '(' :: (r ++ [')'])
  | r :: rest => '(' :: (r ++ (')' :: ',' :: ringsBody rest))

/-- A well-formed `POLYGON Z` text with the given ring texts. -/
def mkPolygonZ (rs : List (List Char)) : List Char :=
  POLYGON_Z_PAT ++ (ringsBody rs ++ [')'])

/-- A concrete dumped-point table: one polygon, one ring, two vertices. -/
def c1polygons : List DumpedPoint :=
  [⟨1, 1, 0, 1, [mkRat 0 1, mkRat 0 1, mkRat 0 1]⟩,
   ⟨1, 1, 0, 2, [mkRat 1 1, mkRat 0 1, mkRat 0 1]⟩]

/-- The vertex-index-2 row of `c1polygons`. -/
def c1p : DumpedPoint := ⟨1, 1, 0, 2, [mkRat 1 1, mkRat 0 1, mkRat 0 1]⟩

/-- A concrete single-ring `POLYGON Z` body with its raw parsed points. -/
def c1rsps : List (List Char × List (List ℚ)) :=
  [("0 0 0,1 0 0,1 1 0,0 0 0".toList,
    [[mkRat 0 1, mkRat 0 1, mkRat 0 1], [mkRat 1 1, mkRat 0 1, mkRat 0 1],
     [mkRat 1 1, mkRat 1 1, mkRat 0 1], [mkRat 0 1, mkRat 0 1, mkRat 0 1]])]

theorem morton_code_pos (x y : Nat) (h : ¬(x = 0 ∧ y = 0)) :
    0 < morton_code x y := by
  induction x, y using morton_code.induct with
  | case1 x y hxy => exact absurd hxy h
  | case2 x y hxy ih =>
    rw [morton_code, if_neg hxy]
    rcases Nat.eq_zero_or_pos (x % 2 + 2 * (y % 2)) with hz | hp
    · have hsub : ¬(x / 2 = 0 ∧ y / 2 = 0) := by omega
      have := ih hsub
      omega
    · omega

/-- C5: for all pairs of non-negative integers `(x, y)`, decoding the Morton
code of `(x, y)` returns `(x, y)` exactly:
`rev_morton_code (morton_code x y) = (x, y)`. -/
theorem rev_morton_code_morton_code (x y : Nat) :
    rev_morton_code (morton_code x y) = (x, y) := by
  induction x, y using morton_code.induct with
  | case1 x y hxy =>
    obtain ⟨hx, hy⟩ := hxy
    subst hx; subst hy
    rw [morton_code, if_pos ⟨rfl, rfl⟩, rev_morton_code]
    simp
  | case2 x y hxy ih =>
    rw [morton_code, if_neg hxy]
    set m := morton_code (x / 2) (y / 2) with hm
    have hkey : x % 2 + 2 * (y % 2) + 4 * m ≠ 0 := by
      rcases Nat.eq_zero_or_pos (x % 2 + 2 * (y % 2)) with hz | hp
      · have hsub : ¬(x / 2 = 0 ∧ y / 2 = 0) := by omega
        have := morton_code_pos (x / 2) (y / 2) hsub
        omega
      · omega
    rw [rev_morton_code, if_neg hkey]
    have h4 : (x % 2 + 2 * (y % 2) + 4 * m) / 4 = m := by omega
    have h2 : (x % 2 + 2 * (y % 2) + 4 * m) % 2 = x % 2 := by omega
    have h22 : (x % 2 + 2 * (y % 2) + 4 * m) / 2 % 2 = y % 2 := by omega
    simp only [h4, h2, h22, ih]
    refine Prod.ext ?_ ?_ <;> simp <;> omega

/-! ## Grid indexer: Morton-ordered grid

Modelled from the spec: `utils.create_rectangle_grid_morton` is not part of
the sources at hand (only its tests are). Per the spec (§4.1), the base grid
has `ceil(width/h_spacing)` by `ceil(height/v_spacing)` cells, and the
Morton-ordered variant is quadtree-compatible: it expands the base cell counts
to the smallest enclosing power-of-two square so that the total cell count is
a power of 4 (`log4(count)` is an integer). -/

/-- C9: for every bounding box and positive spacings, the Morton-ordered grid
has a total cell count that is a power of 4 (`log4` of the count is an
integer). -/
theorem create_rectangle_grid_morton_count_pow4
    (xmin ymin xmax ymax hspacing vspacing : ℚ)
    (hh : 0 < hspacing) (hv : 0 < vspacing) :
    ∃ n : Nat,
      (create_rectangle_grid_morton xmin ymin xmax ymax
        hspacing vspacing).length = 4 ^ n := by
  refine ⟨Nat.clog 2 (max (⌈(xmax - xmin) / hspacing⌉).toNat
    (⌈(ymax - ymin) / vspacing⌉).toNat), ?_⟩
  unfold create_rectangle_grid_morton
  simp only [List.length_flatMap, Function.comp_def, List.length_map,
    List.length_range, List.map_const', List.sum_replicate, smul_eq_mul]
  rw [← mul_pow]
  norm_num

/-- Witness for C9 at the concrete bounding box `(0, 0, 25, 15)` with spacings
`10 x 10`: the base grid is `3 x 2`, expanded to `4 x 4 = 16 = 4^2` cells. -/
theorem create_rectangle_grid_morton_count_pow4_witness :
    (0 : ℚ) < 10 ∧
      ∃ n : Nat,
        (create_rectangle_grid_morton 0 0 25 15 10 10).length = 4 ^ n :=
  ⟨by norm_num,
    create_rectangle_grid_morton_count_pow4 0 0 25 15 10 10
      (by norm_num) (by norm_num)⟩

/-! ## Spatial query builder (`db3dnl.build_query` and its helpers)

The psycopg2 `sql.Composed` fragments produced by `query_all`, `query_bbox`,
`query_extent` and `query_tiles_in_list` are modelled by an inductive type
with one constructor per SQL template, carrying exactly the parameters that
the source substitutes into that template.  `db.Schema` (whose module is not
among the sources) is modelled as a plain record of the field names that
`db3dnl.py` reads from it, and `conn.get_fields` as an explicit list of the
table's column names. -/

/-- C3: exactly one selection branch of `build_query` is taken, with
precedence BoundingBox > TileList > PolygonExtent > WholeTable; in
particular, when both a bounding box and a tile list are supplied the
bounding-box plan (and not the tile-list plan) is built. -/
theorem build_query_selection_precedence
    (tableFields : List String) (features : FeatureSchema)
    (tile_index : TileIndexSchema) (tile_list : List String)
    (bbox : List ℚ) (extent : List (List (ℚ × ℚ)))
    (lod0 gcol : String)
    (hgeom : features.geometry.head? = some (lod0, gcol)) :
    ∃ q, build_query tableFields features tile_index tile_list bbox extent
        = some q ∧
      (bbox ≠ [] → q.selection = query_bbox features bbox 7415 gcol) ∧
      (bbox = [] → tile_list ≠ [] →
        q.selection = query_tiles_in_list features tile_index tile_list gcol) ∧
      (bbox = [] → tile_list = [] → extent ≠ [] →
        q.selection = query_extent features (to_ewkt extent 7415) gcol) ∧
      (bbox = [] → tile_list = [] → extent = [] →
        q.selection = query_all features gcol) ∧
      (bbox ≠ [] → tile_list ≠ [] →
        q.selection = query_bbox features bbox 7415 gcol ∧
          q.selection ≠ query_tiles_in_list features tile_index tile_list gcol) := by
  match hg : features.geometry with
  | [] => rw [hg] at hgeom; simp at hgeom
  | (l0, g0) :: rest =>
    rw [hg] at hgeom
    simp only [List.head?_cons, Option.some.injEq, Prod.mk.injEq] at hgeom
    obtain ⟨hl, hgc⟩ := hgeom
    subst hgc
    refine ⟨_, by rw [build_query, hg], ?_, ?_, ?_, ?_, ?_⟩ <;>
      intro h1 <;>
      simp only [MainQuery.selection, query_geometry] <;>
      [skip; (intro h2); (intro h2 h3); (intro h2 h3); (intro h2)]
    · simp [if_pos h1, query_bbox]
    · simp [h1, if_pos h2, query_tiles_in_list]
    · simp [h1, h2, if_pos h3, query_extent]
    · simp [h1, h2, h3, query_all]
    · constructor
      · simp [if_pos h1, query_bbox]
      · simp [if_pos h1, query_bbox, query_tiles_in_list, SubQueries.mk.injEq]

/-- Witness for C3 at a concrete schema with both a bounding box and a tile
list supplied. -/
theorem build_query_selection_precedence_witness :
    (⟨"c3", "tbl", "pk", "coid", [("1", "geom")], []⟩ :
        FeatureSchema).geometry.head? = some ("1", "geom") ∧
      ∃ q, build_query ["pk", "coid", "geom", "height"]
          ⟨"c3", "tbl", "pk", "coid", [("1", "geom")], []⟩
          ⟨"idx", "tiles", "id", "geom"⟩ ["t1"] [0, 0, 1, 1] [] = some q ∧
        (([(0 : ℚ), 0, 1, 1] : List ℚ) ≠ [] →
          q.selection = query_bbox ⟨"c3", "tbl", "pk", "coid", [("1", "geom")], []⟩
            [0, 0, 1, 1] 7415 "geom") ∧
        (([(0 : ℚ), 0, 1, 1] : List ℚ) = [] → (["t1"] : List String) ≠ [] →
          q.selection = query_tiles_in_list
            ⟨"c3", "tbl", "pk", "coid", [("1", "geom")], []⟩
            ⟨"idx", "tiles", "id", "geom"⟩ ["t1"] "geom") ∧
        (([(0 : ℚ), 0, 1, 1] : List ℚ) = [] → (["t1"] : List String) = [] →
          ([] : List (List (ℚ × ℚ))) ≠ [] →
          q.selection = query_extent ⟨"c3", "tbl", "pk", "coid", [("1", "geom")], []⟩
            (to_ewkt [] 7415) "geom") ∧
        (([(0 : ℚ), 0, 1, 1] : List ℚ) = [] → (["t1"] : List String) = [] →
          ([] : List (List (ℚ × ℚ))) = [] →
          q.selection = query_all ⟨"c3", "tbl", "pk", "coid", [("1", "geom")], []⟩
            "geom") ∧
        (([(0 : ℚ), 0, 1, 1] : List ℚ) ≠ [] → (["t1"] : List String) ≠ [] →
          q.selection = query_bbox ⟨"c3", "tbl", "pk", "coid", [("1", "geom")], []⟩
            [0, 0, 1, 1] 7415 "geom" ∧
          q.selection ≠ query_tiles_in_list
            ⟨"c3", "tbl", "pk", "coid", [("1", "geom")], []⟩
            ⟨"idx", "tiles", "id", "geom"⟩ ["t1"] "geom") :=
  ⟨rfl, build_query_selection_precedence ["pk", "coid", "geom", "height"]
    ⟨"c3", "tbl", "pk", "coid", [("1", "geom")], []⟩
    ⟨"idx", "tiles", "id", "geom"⟩ ["t1"] [0, 0, 1, 1] [] "1" "geom" rfl⟩

/-! ## Record converter (`db3dnl.table_to_cityobjects`,
`db3dnl.dbexport_to_cityobjects`)

A row of `conn.get_dict` is a Python dict, modelled as an association list of
column name to value.  Values are an inductive type: strings, exact rationals
(floats/ints), datetimes (carrying their ISO-8601 rendering, which is what
`isoformat()` returns), `None`, and nested lists (the dumped geometry
arrays).  The cjio `Geometry` object's `boundaries` attribute starts out
unset, modelled as `none`. -/

/-- C2 (amended): a `'Solid'` geometry kind wraps the row's multi-surface
boundary in exactly one singleton outer list, and the geometry kind
`'MultiSurface'` uses the boundary unchanged, so `'Solid'` has exactly one
more nesting level; geometry kinds other than these two leave the boundary
unset. -/
theorem record_boundary_wrapping (record : List (String × PyVal)) (g : PyVal)
    (cotype lod : String)
    (hg : pyGet record "geom" = some g)
    (hc : ∃ c, pyGet record "coid" = some c) :
    (∃ c co, record_to_cityobject record cotype "Solid" lod = some (c, co) ∧
      co.boundaries = some (.list [g]) ∧
      pyDepth (.list [g]) = pyDepth g + 1) ∧
    (∃ c co, record_to_cityobject record cotype "MultiSurface" lod
        = some (c, co) ∧ co.boundaries = some g) := by
  obtain ⟨c, hcoid⟩ := hc
  constructor
  · have h : record_to_cityobject record cotype "Solid" lod
        = some (c, CityObject.mk c "Solid" lod (some (.list [g]))
            ((record.filter fun kv =>
                kv.1 ≠ "pk" ∧ kv.1 ≠ "geom" ∧ kv.1 ≠ "coid").map fun kv =>
              (kv.1, convertAttr kv.2))
            cotype) := by
      simp [record_to_cityobject, hcoid, hg]
    refine ⟨c, _, h, rfl, ?_⟩
    simp [pyDepth, pyDepthList]
    omega
  · have h : record_to_cityobject record cotype "MultiSurface" lod
        = some (c, CityObject.mk c "MultiSurface" lod (some g)
            ((record.filter fun kv =>
                kv.1 ≠ "pk" ∧ kv.1 ≠ "geom" ∧ kv.1 ≠ "coid").map fun kv =>
              (kv.1, convertAttr kv.2))
            cotype) := by
      simp [record_to_cityobject, hcoid, hg]
    exact ⟨c, _, h, rfl⟩

/-- Witness for C2 (amended) at a concrete record. -/
theorem record_boundary_wrapping_witness :
    pyGet exampleRecord "geom" = some exampleGeom ∧
      ((∃ c co,
          record_to_cityobject exampleRecord "Building" "Solid" "1"
            = some (c, co) ∧
          co.boundaries = some (.list [exampleGeom]) ∧
          pyDepth (.list [exampleGeom]) = pyDepth exampleGeom + 1) ∧
        (∃ c co,
          record_to_cityobject exampleRecord "Building" "MultiSurface" "1"
            = some (c, co) ∧ co.boundaries = some exampleGeom)) :=
  ⟨rfl, record_boundary_wrapping exampleRecord exampleGeom "Building" "1" rfl
    ⟨.str "b1", rfl⟩⟩

/-- C2 counterexample: for the geometry kind `'CompositeSurface'` (not
`'Solid'`), the converter does not carry the row's boundary over unchanged --
the cjio `Geometry.boundaries` attribute is never assigned at all, refuting
the claim for geometry kinds other than `'Solid'` and `'MultiSurface'`. -/
theorem record_boundary_other_kind_counterexample :
    ∃ c co,
      record_to_cityobject exampleRecord "Bridge" "CompositeSurface" "1"
          = some (c, co) ∧
        pyGet exampleRecord "geom" = some exampleGeom ∧
        co.boundaries ≠ some exampleGeom ∧ co.boundaries = none := by
  refine ⟨.str "b1", _, rfl, rfl, ?_, rfl⟩
  simp [record_to_cityobject, pyGet, exampleRecord]

/-- C7 (amended): the geometry kind is `'Solid'` exactly when the object type
name lowercased equals `"building"`; every other name gets
`'MultiSurface'`. -/
theorem geomtype_of_cotype_cases (cotype : String) :
    (geomtype_of_cotype cotype = "Solid" ↔ pyLower cotype = "building") ∧
      (pyLower cotype ≠ "building" →
        geomtype_of_cotype cotype = "MultiSurface") := by
  by_cases h : pyLower cotype = "building" <;> simp [geomtype_of_cotype, h]

/-- Witness for C7 (amended) at the concrete type name `"BLDG"`. -/
theorem geomtype_of_cotype_cases_witness :
    (geomtype_of_cotype "BLDG" = "Solid" ↔ pyLower "BLDG" = "building") ∧
      (pyLower "BLDG" ≠ "building" →
        geomtype_of_cotype "BLDG" = "MultiSurface") :=
  geomtype_of_cotype_cases "BLDG"

/-- C7 counterexample: `"BuildingPart"` contains `"building"` as a
case-insensitive substring but is classified `'MultiSurface'`, because the
code compares `cotype.lower()` for equality with `'building'`, not for a
substring match. -/
theorem geomtype_of_cotype_substring_counterexample :
    ("building".toList <:+: (pyLower "BuildingPart").toList) ∧
      geomtype_of_cotype "BuildingPart" ≠ "Solid" := by
  constructor
  · exact ⟨[], "part".toList, by decide⟩
  · decide

theorem mem_converted_attributes (record : List (String × PyVal))
    (kv : String × PyVal)
    (h : kv ∈ (record.filter fun kv =>
        kv.1 ≠ "pk" ∧ kv.1 ≠ "geom" ∧ kv.1 ≠ "coid").map fun kv =>
      (kv.1, convertAttr kv.2)) :
    kv.1 ≠ "pk" ∧ kv.1 ≠ "geom" ∧ kv.1 ≠ "coid" := by
  simp only [List.mem_map, List.mem_filter, decide_eq_true_eq] at h
  obtain ⟨kv', ⟨_, hne⟩, rfl⟩ := h
  exact hne

/-- C6: the generic attribute projection of `build_query` never contains the
primary-key column, the city-object-id column or any geometry column, and the
record converter never copies the keys `'pk'`, `'geom'` or `'coid'` into a
converted record's attributes. -/
theorem attributes_never_contain_key_columns
    (tableFields : List String) (features : FeatureSchema)
    (tile_index : TileIndexSchema) (tile_list : List String) (bbox : List ℚ)
    (extent : List (List (ℚ × ℚ))) (q : MainQuery)
    (hq : build_query tableFields features tile_index tile_list bbox extent
      = some q)
    (record : List (String × PyVal)) (cotype geomtype lod : String)
    (c : PyVal) (co : CityObject)
    (hco : record_to_cityobject record cotype geomtype lod = some (c, co)) :
    (∀ col ∈ q.attr, col ≠ features.pk ∧ col ≠ features.cityobject_id ∧
      col ∉ features.geometry.map Prod.snd) ∧
    (∀ kv ∈ co.attributes, kv.1 ≠ "pk" ∧ kv.1 ≠ "geom" ∧ kv.1 ≠ "coid") := by
  constructor
  · intro col hcol
    match hg : features.geometry with
    | [] => rw [build_query, hg] at hq; exact absurd hq (by simp)
    | (l0, g0) :: rest =>
      rw [build_query, hg] at hq
      simp only [Option.some.injEq] at hq
      rw [← hq] at hcol
      simp only [List.mem_filter, decide_eq_true_eq] at hcol
      tauto
  · cases hcoid : pyGet record "coid" with
    | none =>
      rw [record_to_cityobject, hcoid] at hco
      simp at hco
    | some coid =>
      by_cases hs : geomtype = "Solid"
      · cases hgm : pyGet record "geom" with
        | none => simp [record_to_cityobject, hcoid, hs, hgm] at hco
        | some g =>
          simp only [record_to_cityobject, hcoid, hs, hgm, if_pos,
            Option.bind_eq_bind, Option.some_bind, Option.pure_def,
            Option.some.injEq, Prod.mk.injEq] at hco
          obtain ⟨-, rfl⟩ := hco
          exact fun kv hkv => mem_converted_attributes record kv hkv
      · by_cases hm : geomtype = "MultiSurface"
        · cases hgm : pyGet record "geom" with
          | none => simp [record_to_cityobject, hcoid, hs, hm, hgm] at hco
          | some g =>
            simp only [record_to_cityobject, hcoid, hs, hm, hgm, if_neg,
              if_pos, Option.bind_eq_bind, Option.some_bind, Option.pure_def,
              Option.some.injEq, Prod.mk.injEq, if_false] at hco
            obtain ⟨-, rfl⟩ := hco
            exact fun kv hkv => mem_converted_attributes record kv hkv
        · simp only [record_to_cityobject, hcoid, hs, hm, Option.bind_eq_bind,
            Option.some_bind, Option.pure_def, Option.some.injEq,
            Prod.mk.injEq, if_false] at hco
          obtain ⟨-, rfl⟩ := hco
          exact fun kv hkv => mem_converted_attributes record kv hkv

/-- Witness for C6 at a concrete table schema and a concrete record. -/
theorem attributes_never_contain_key_columns_witness :
    (∀ col ∈ exampleMainQuery.attr, col ≠ exampleFeatures.pk ∧
      col ≠ exampleFeatures.cityobject_id ∧
      col ∉ exampleFeatures.geometry.map Prod.snd) ∧
    (∀ kv ∈ exampleCityObject.attributes,
      kv.1 ≠ "pk" ∧ kv.1 ≠ "geom" ∧ kv.1 ≠ "coid") :=
  attributes_never_contain_key_columns
    ["pk_col", "coid_col", "geom_col", "height", "skipme"] exampleFeatures
    exampleTileIndex [] [] [] exampleMainQuery rfl exampleRecord "Building"
    "Solid" "1" (.str "b1") exampleCityObject rfl

/-! ## Tile-list selection (`db3dnl.with_list`, `db3dnl.tiles_in_index`,
`db3dnl.all_in_index`)

The tile index table is modelled by the list of tile ids in its primary-key
column (`idx`); `SELECT DISTINCT {tile} FROM {index_}` is `idx.dedup` and the
`WHERE {tile} IN {tiles}` clause a membership filter.  The database's row
order is not load-bearing for any claim (only membership is). -/

theorem dedup_eq_nil_iff (l : List String) : l.dedup = [] ↔ l = [] := by
  constructor
  · intro h
    by_contra hne
    obtain ⟨a, ha⟩ := List.exists_mem_of_ne_nil l hne
    have ha' : a ∈ l.dedup := List.mem_dedup.mpr ha
    rw [h] at ha'
    simp at ha'
  · intro h; rw [h]; rfl

theorem with_list_ok_mem (idx : List String) (t0 : String)
    (rest res : List String)
    (hres : with_list idx (t0 :: rest) = .ok res)
    (hnall : pyLower t0 ≠ "all") :
    ∀ x, x ∈ res ↔ x ∈ idx ∧ x ∈ (t0 :: rest : List String) := by
  intro x
  rw [with_list] at hres
  simp only [hnall, if_neg, if_false, tiles_in_index] at hres
  split at hres
  · exact Except.noConfusion hres
  · simp only [Except.ok.injEq] at hres
    rw [← hres, List.mem_dedup, List.mem_filter]
    simp

/-- C8: tile-list resolution fails with a SelectionError exactly when the
effective tile set is empty: `["all", ...]` on an index with zero tiles
raises, an explicit list none of whose ids are in the index raises, and on
success the provided ids absent from the index are merely skipped — the
returned ids are exactly the provided ids present in the index. -/
theorem with_list_selection_error_iff (idx : List String) (t0 : String)
    (rest : List String) :
    (pyLower t0 = "all" →
      (isSelectionError (with_list idx (t0 :: rest)) = true ↔ idx = [])) ∧
    (pyLower t0 ≠ "all" →
      (isSelectionError (with_list idx (t0 :: rest)) = true ↔
        ∀ t ∈ (t0 :: rest : List String), t ∉ idx)) ∧
    (∀ res, with_list idx (t0 :: rest) = .ok res → pyLower t0 ≠ "all" →
      ∀ x, x ∈ res ↔ x ∈ idx ∧ x ∈ (t0 :: rest : List String)) := by
  refine ⟨?_, ?_, ?_⟩
  · intro hall
    rw [with_list]
    simp only [hall, if_pos, all_in_index]
    by_cases hz : (idx.dedup).length = 0
    · rw [if_pos hz]
      simp only [isSelectionError, true_iff]
      exact (dedup_eq_nil_iff idx).mp (List.length_eq_zero.mp hz)
    · rw [if_neg hz]
      simp only [isSelectionError, Bool.false_eq_true, false_iff]
      intro h
      exact hz (by rw [h]; rfl)
  · intro hnall
    rw [with_list]
    simp only [hnall, if_neg, if_false, tiles_in_index]
    by_cases hz : ((idx.filter fun t => t ∈ (t0 :: rest : List String)).dedup).length = 0
    · rw [if_pos hz]
      simp only [isSelectionError, true_iff]
      intro t htl hti
      have hmem : t ∈ (idx.filter fun t => t ∈ (t0 :: rest : List String)).dedup := by
        rw [List.mem_dedup, List.mem_filter]
        exact ⟨hti, by simpa using htl⟩
      rw [List.length_eq_zero.mp hz] at hmem
      simp at hmem
    · rw [if_neg hz]
      simp only [isSelectionError, Bool.false_eq_true, false_iff, not_forall]
      have hne : (idx.filter fun t => t ∈ (t0 :: rest : List String)).dedup ≠ [] := by
        intro h
        exact hz (by rw [h]; rfl)
      obtain ⟨x, hx⟩ := List.exists_mem_of_ne_nil _ hne
      rw [List.mem_dedup, List.mem_filter] at hx
      exact ⟨x, by push_neg; exact ⟨by simpa using hx.2, hx.1⟩⟩
  · exact fun res hres hnall => with_list_ok_mem idx t0 rest res hres hnall

/-- Witness for C8 at a concrete index and tile list: ids `"t9"` absent from
the index are skipped, `"t1"` is returned. -/
theorem with_list_selection_error_iff_witness :
    (pyLower "t1" = "all" →
      (isSelectionError (with_list ["t1", "t2"] ["t1", "t9"]) = true ↔
        (["t1", "t2"] : List String) = [])) ∧
    (pyLower "t1" ≠ "all" →
      (isSelectionError (with_list ["t1", "t2"] ["t1", "t9"]) = true ↔
        ∀ t ∈ (["t1", "t9"] : List String), t ∉ (["t1", "t2"] : List String))) ∧
    (∀ res, with_list ["t1", "t2"] ["t1", "t9"] = .ok res →
      pyLower "t1" ≠ "all" →
      ∀ x, x ∈ res ↔ x ∈ (["t1", "t2"] : List String) ∧
        x ∈ (["t1", "t9"] : List String)) :=
  with_list_selection_error_iff ["t1", "t2"] "t1" ["t9"]

/-- C10: tile-list resolution inspects only the first element for the
`"all"` token: with a first element `"all"` (case-insensitively) the whole
index is selected and the remaining supplied ids are ignored; otherwise the
returned ids are exactly the supplied ids present in the index, even when
`"all"` appears later in the list. -/
theorem with_list_head_all_only (idx : List String) (t0 : String)
    (rest rest' : List String) :
    (pyLower t0 = "all" →
      with_list idx (t0 :: rest) = with_list idx (t0 :: rest') ∧
      ∀ res, with_list idx (t0 :: rest) = .ok res → res = all_in_index idx) ∧
    (pyLower t0 ≠ "all" →
      ∀ res, with_list idx (t0 :: rest) = .ok res →
        ∀ x, x ∈ res ↔ x ∈ idx ∧ x ∈ (t0 :: rest : List String)) := by
  constructor
  · intro hall
    constructor
    · rw [with_list, with_list]
      simp [hall]
    · intro res hres
      rw [with_list] at hres
      simp only [hall, if_pos] at hres
      split at hres
      · exact absurd hres (by simp)
      · simpa [Except.ok.injEq] using hres.symm
  · exact fun hnall res hres => with_list_ok_mem idx t0 rest res hres hnall

/-- Witness for C10 at a concrete index with `"ALL"` leading the list and
with `"all"` buried in a later position. -/
theorem with_list_head_all_only_witness :
    (pyLower "ALL" = "all" →
      with_list ["t1", "t2"] ["ALL", "t9"] = with_list ["t1", "t2"] ["ALL"] ∧
      ∀ res, with_list ["t1", "t2"] ["ALL", "t9"] = .ok res →
        res = all_in_index ["t1", "t2"]) ∧
    (pyLower "ALL" ≠ "all" →
      ∀ res, with_list ["t1", "t2"] ["ALL", "t9"] = .ok res →
        ∀ x, x ∈ res ↔ x ∈ (["t1", "t2"] : List String) ∧
          x ∈ (["ALL", "t9"] : List String)) :=
  with_list_head_all_only ["t1", "t2"] "ALL" ["t9"] []

/-! ## Export scheduler (`db3dnl.query`, single-threaded branch)

In the `threads == 1` branch the source builds `sql_query` for every table
(lines 409–411) but then executes `conn.get_dict(query)` (line 414), where
`query` resolves to the enclosing module-level generator function itself —
not the built `sql_query`.  The argument handed to the driver is modelled by
`QueryArg`; the multi-threaded branch (which passes `sql_query` correctly)
involves completion-order concurrency and is not modelled. -/

/-- C4, divergence witnessed at a concrete configuration of one table: the
single-threaded scheduler pairs each yield with the right table name, but
the argument it hands to `conn.get_dict` is the module-level function
`query`, never the `sql_query` it just built for the table — so it does not
execute the built query. -/
theorem query_single_thread_passes_function_not_query :
    query_single_thread
        [("Building", [⟨"tbl", exampleFeatures,
          ["pk_col", "coid_col", "geom_col", "height", "skipme"]⟩])]
        exampleTileIndex [] [] []
      = [(("Building", "tbl"), QueryArg.moduleFunction)] ∧
    (∀ e ∈ query_single_thread
        [("Building", [⟨"tbl", exampleFeatures,
          ["pk_col", "coid_col", "geom_col", "height", "skipme"]⟩])]
        exampleTileIndex [] [] [],
      e.2 ≠ QueryArg.builtQuery
        (build_query ["pk_col", "coid_col", "geom_col", "height", "skipme"]
          exampleFeatures exampleTileIndex [] [] [])) := by
  constructor
  · rfl
  · intro e he
    simp only [query_single_thread, List.flatMap_cons, List.map_cons,
      List.map_nil, List.flatMap_nil, List.append_nil, List.mem_singleton]
      at he
    rw [he]
    simp

/-! ## Vertex re-aggregation filter (`db3dnl.query_geometry`, `expand_points`
subquery)

A row of `ST_DumpPoints` is `(pk, PATH[1], PATH[2], PATH[3], point)`.  The
`expand_points` subquery keeps only rows with `(geom).PATH[3] > 1` (the
duplicate closing vertex of the simple-features convention is `PATH[3] = 1`'s
partner: the first vertex is the one skipped) and orders by
`(pk, exterior, interior, vertex)`. -/

theorem dotStarNotEnd_of_no_newline (t : List Char) (hne : t ≠ [])
    (hnl : '\n' ∉ t) : dotStarNotEnd t = some t.dropLast := by
  rw [dotStarNotEnd, if_neg hne]
  have htw : (t.takeWhile fun c => c ≠ '\n') = t :=
    List.takeWhile_eq_self_iff.mpr fun x hx => by
      simp only [ne_eq, decide_eq_true_eq]
      exact fun h => hnl (h ▸ hx)
  rw [htw]
  simp

theorem outerScan_append_pat (t : List Char) (hne : t ≠ [])
    (hnl : '\n' ∉ t) :
    outerScan (POLYGON_Z_PAT ++ t) = some t.dropLast := by
  have h1 : POLYGON_Z_PAT ++ t = 'P' :: ("OLYGON Z (".toList ++ t) := rfl
  have hpre : POLYGON_Z_PAT.isPrefixOf (POLYGON_Z_PAT ++ t) = true :=
    List.isPrefixOf_iff_prefix.mpr (List.prefix_append _ _)
  rw [h1, outerScan, ← h1, if_pos hpre, List.drop_left,
    dotStarNotEnd_of_no_newline t hne hnl]

theorem ringScan_inner (r : List Char) : ∀ (acc t : List Char), ')' ∉ r →
    acc ++ r ≠ [] →
    ringScan (r ++ ')' :: t) (some acc) = (acc ++ r) :: ringScan t none := by
  induction r with
  | nil =>
    intro acc t _ hne
    rw [List.append_nil] at hne
    rw [List.nil_append, List.append_nil, ringScan, if_pos rfl, if_neg hne]
  | cons c r' ih =>
    intro acc t hr hne
    have hc : ¬(c = ')') := fun h => hr (by rw [h]; exact List.mem_cons_self _ _)
    rw [List.cons_append, ringScan, if_neg hc,
      ih (acc ++ [c]) t (fun h => hr (List.mem_cons_of_mem _ h)) (by simp)]
    simp

theorem ringScan_ringsBody : ∀ rs : List (List Char),
    (∀ r ∈ rs, r ≠ [] ∧ ')' ∉ r) → ringScan (ringsBody rs) none = rs := by
  intro rs
  induction rs with
  | nil => intro _; rfl
  | cons r rest ih =>
    intro h
    obtain ⟨hne, hnp⟩ := h r (List.mem_cons_self _ _)
    cases rest with
    | nil =>
      show ringScan ('(' :: (r ++ [')'])) none = [r]
      rw [ringScan, if_pos rfl,
        show r ++ [')'] = r ++ ')' :: ([] : List Char) from rfl,
        ringScan_inner r [] [] hnp (by simpa using hne)]
      rfl
    | cons r2 rest2 =>
      show ringScan ('(' :: (r ++ (')' :: ',' :: ringsBody (r2 :: rest2)))) none
        = r :: r2 :: rest2
      rw [ringScan, if_pos rfl,
        ringScan_inner r [] (',' :: ringsBody (r2 :: rest2)) hnp
          (by simpa using hne),
        ringScan, if_neg (by decide),
        ih fun r hr => h r (List.mem_cons_of_mem _ hr)]
      rfl

theorem newline_not_mem_ringsBody : ∀ rs : List (List Char),
    (∀ r ∈ rs, '\n' ∉ r) → '\n' ∉ ringsBody rs := by
  intro rs
  induction rs with
  | nil => intro _; simp [ringsBody]
  | cons r rest ih =>
    intro h
    cases rest with
    | nil =>
      show '\n' ∉ '(' :: (r ++ [')'])
      simp only [List.mem_cons, List.mem_append, List.mem_singleton]
      push_neg
      exact ⟨by decide, h r (List.mem_cons_self _ _), by decide⟩
    | cons r2 rest2 =>
      show '\n' ∉ '(' :: (r ++ (')' :: ',' :: ringsBody (r2 :: rest2)))
      simp only [List.mem_cons, List.mem_append]
      push_neg
      exact ⟨by decide, h r (List.mem_cons_self _ _), by decide, by decide,
        ih fun r hr => h r (List.mem_cons_of_mem _ hr)⟩

theorem mapM_parseRing_drop (rsps : List (List Char × List (List ℚ)))
    (h : ∀ pr ∈ rsps, parseRing pr.1 = some pr.2) :
    ((rsps.map Prod.fst).mapM fun ring => (parseRing ring).map (List.drop 1))
      = some (rsps.map fun pr => pr.2.drop 1) := by
  induction rsps with
  | nil => rfl
  | cons pr rest ih =>
    rw [List.map_cons, List.map_cons, List.mapM_cons,
      h pr (List.mem_cons_self _ _),
      ih fun pr hpr => h pr (List.mem_cons_of_mem _ hpr)]
    rfl

/-- C1: in the vertex re-aggregation pipeline the duplicate closing vertex is
always removed: the `expand_points` subquery keeps exactly the dumped points
whose vertex index exceeds 1, and `parse_polygonz` on a well-formed
`POLYGON Z` text with `n` rings yields exactly `n` rings, each equal to the
raw ring's point list with its first point removed, so every yielded ring's
length is the raw point count minus 1. -/
theorem expand_points_and_parse_polygonz
    (polygons : List DumpedPoint) (p : DumpedPoint)
    (rsps : List (List Char × List (List ℚ)))
    (hwf : ∀ pr ∈ rsps, pr.1 ≠ [] ∧ ')' ∉ pr.1 ∧ '\n' ∉ pr.1 ∧
      parseRing pr.1 = some pr.2) :
    (p ∈ expand_points polygons ↔ p ∈ polygons ∧ 1 < p.vertex) ∧
    parse_polygonz (mkPolygonZ (rsps.map Prod.fst))
      = some (rsps.map fun pr => pr.2.drop 1) ∧
    (rsps.map fun pr => pr.2.drop 1).length = rsps.length ∧
    (∀ pr ∈ rsps, (pr.2.drop 1).length = pr.2.length - 1) := by
  refine ⟨?_, ?_, List.length_map _ _, fun pr _ => List.length_drop 1 pr.2⟩
  · rw [expand_points, List.mem_mergeSort, List.mem_filter]
    simp
  · have hrings : ∀ r ∈ rsps.map Prod.fst, r ≠ [] ∧ ')' ∉ r := by
      intro r hr
      obtain ⟨pr, hpr, rfl⟩ := List.mem_map.mp hr
      exact ⟨(hwf pr hpr).1, (hwf pr hpr).2.1⟩
    have hnl : '\n' ∉ ringsBody (rsps.map Prod.fst) ++ [')'] := by
      simp only [List.mem_append, List.mem_singleton]
      push_neg
      refine ⟨newline_not_mem_ringsBody _ ?_, by decide⟩
      intro r hr
      obtain ⟨pr, hpr, rfl⟩ := List.mem_map.mp hr
      exact (hwf pr hpr).2.2.1
    have houter : outerScan (mkPolygonZ (rsps.map Prod.fst))
        = some (ringsBody (rsps.map Prod.fst)) := by
      rw [mkPolygonZ, outerScan_append_pat _ (by simp) hnl,
        List.dropLast_concat]
    rw [parse_polygonz, houter]
    show ((ringScan (ringsBody (rsps.map Prod.fst)) none).mapM
        fun ring => (parseRing ring).map (List.drop 1))
      = some (rsps.map fun pr => pr.2.drop 1)
    rw [ringScan_ringsBody _ hrings]
    exact mapM_parseRing_drop rsps fun pr hpr => (hwf pr hpr).2.2.2

/-- Witness for C1 at a concrete dumped-point table and a concrete
`POLYGON Z` text of one ring with four raw points. -/
theorem expand_points_and_parse_polygonz_witness :
    (∀ pr ∈ c1rsps, pr.1 ≠ [] ∧ ')' ∉ pr.1 ∧ '\n' ∉ pr.1 ∧
      parseRing pr.1 = some pr.2) ∧
    ((c1p ∈ expand_points c1polygons ↔ c1p ∈ c1polygons ∧ 1 < c1p.vertex) ∧
      parse_polygonz (mkPolygonZ (c1rsps.map Prod.fst))
        = some (c1rsps.map fun pr => pr.2.drop 1) ∧
      (c1rsps.map fun pr => pr.2.drop 1).length = c1rsps.length ∧
      (∀ pr ∈ c1rsps, (pr.2.drop 1).length = pr.2.length - 1)) :=
  ⟨by decide, expand_points_and_parse_polygonz c1polygons c1p c1rsps (by decide)⟩

end CjioDbexport
